import Mathlib

/-!
Verification of the shader-graph materialization engine of
`src/plumber/asset/material.py` (functions `import_texture`, `import_material`,
`resolve_value`, `resolve_input_socket` and the tables `FORMAT_MAP`,
`NODE_INPUT_SOCKET_MAP`).

The Python module mutates Blender's process-wide registries (`bpy.data.images`,
`bpy.data.materials`) and the node tree of the material being built.  The
embedding makes that state explicit: registries are association lists keyed by
resource name, the node tree is a record of nodes and links, and every fallible
operation returns `Except BError`.  Python's built-in exceptions are mapped to
the error kinds of the specification at the sites where they occur:
a list `IndexError` during graph construction becomes `graphConsistencyError`,
a registry `KeyError` (bracket lookup of `bpy.data.images`) becomes
`missingReferenceError`, and a `KeyError` on `FORMAT_MAP` becomes
`resourceError`.  On an error the Python code leaves partially mutated host
state behind; the claims examined here only concern the error value itself or
fully successful builds, so the `Except` embedding discards the partial state.

Python `dict`s iterate in insertion order; they are embedded as association
lists iterated in order.  Scalar/vector/string property values are pass-through
data for this module (only `TextureRef` values are inspected), so they are
embedded as opaque constructors of `PValue`; node positions are likewise
pass-through pairs.
-/

/-- A serialized descriptor value (the spec's closed sum type `Value`).
Only the `TextureRef` alternative is ever inspected by the code under
verification; the remaining alternatives are opaque pass-through data. -/
inductive PValue where
  | texRef (path : String)
  | num (n : Int)
  | str (s : String)
  | vec (v : List Int)
  deriving DecidableEq

/-- A value after resolution by `resolve_value`: either the original
pass-through value, or an image handle (the image's registry name), with
`none` standing for Python's `None` when the lookup missed. -/
inductive HostValue where
  | val (v : PValue)
  | image (handle : Option String)
  deriving DecidableEq

/-- A host image resource (`bpy.data.images` element). -/
structure Image where
  name : String
  width : Nat
  height : Nat
  alpha : Bool
  file_format : String
  source : String
  packed_data : Option (List Nat)
  alpha_mode : String
  colorspace : String
  deriving DecidableEq

/-- Modelled from the spec: the descriptor interface of `Texture` values
produced by the compiled `plumber` extension (not under `src/`); per §3 a
TextureDescriptor carries identity, dimensions, encoding extension and the
raw pixel byte buffer, exposed by the getters used in `import_texture`. -/
structure Texture where
  name : String
  format_ext : String
  width : Nat
  height : Nat
  bytes : List Nat
  deriving DecidableEq

/-- Modelled from the spec: one socket link of a NodeDescriptor,
`{source node index, source output-socket name}` (§3).  The index is embedded
as `Int` because the Python code applies ordinary Python list indexing to it. -/
structure NodeLink where
  node_index : Int
  socket : String
  deriving DecidableEq

/-- Modelled from the spec: a NodeDescriptor (§3) with the getters used by
`import_material`: host node kind, placement, property map, socket-default
map and socket-link map. -/
structure NodeDesc where
  blender_id : String
  position : Int × Int
  properties : List (String × PValue)
  socket_values : List (String × PValue)
  socket_links : List (String × NodeLink)
  deriving DecidableEq

/-- Modelled from the spec: a MaterialDescriptor (§3) with the getters used by
`import_material` (`name()`, `texture_ext()`, `data().properties()`,
`data().nodes()`, `data().texture_color_spaces()`). -/
structure MaterialDesc where
  name : String
  texture_ext : String
  properties : List (String × PValue)
  nodes : List NodeDesc
  texture_color_spaces : List (String × String)
  deriving DecidableEq

/-- Error kinds of the build (§7), attached to the Python failure sites as
described in the module docstring above. -/
inductive BError where
  | graphConsistencyError
  | missingReferenceError
  | resourceError
  deriving DecidableEq

/-- Modelled from the spec: `truncate_name` lives in `plumber/asset/utils.py`,
which is not under `src/`.  Per §6 it is a deterministic cut of a logical name
to the host's maximum identifier length (63 for Blender data-block names);
the claims below depend only on its determinism. -/
def truncate_name (s : String) : String :=
  ⟨s.data.take 63⟩

/-- The `FORMAT_MAP` table of material.py. -/
def FORMAT_MAP : List (String × String) :=
  [(".tga", "TARGA_RAW"), (".png", "PNG")]

/-- `FORMAT_MAP[format_ext]` as a lookup; a miss is a Python `KeyError`. -/
def formatLookup (format_ext : String) : Option String :=
  (FORMAT_MAP.find? (fun p => p.1 = format_ext)).map Prod.snd

/-- The `NODE_INPUT_SOCKET_MAP` table of material.py. -/
def NODE_INPUT_SOCKET_MAP : List (String × String) :=
  [("Specular", "Specular IOR Level"), ("Emission", "Emission Color")]

/-- `resolve_input_socket` of material.py:
`NODE_INPUT_SOCKET_MAP.get(socket, socket)`. -/
def resolve_input_socket (socket : String) : String :=
  ((NODE_INPUT_SOCKET_MAP.find? (fun p => p.1 = socket)).map Prod.snd).getD socket

/-- `bpy.data.images.get(name)`: first image with the given name, if any. -/
def findImage (images : List Image) (name : String) : Option Image :=
  images.find? (fun i => i.name = name)

/-- `resolve_value` of material.py.  The global `bpy.data.images` registry is
passed explicitly.  A `TextureRef` is resolved by `bpy.data.images.get`, which
returns `None` (`Option.map` of a missed lookup) rather than raising; any
other value is returned unchanged. -/
def resolve_value (images : List Image) (value : PValue) (texture_ext : String) :
    HostValue :=
  match value with
  | .texRef path =>
      .image ((findImage images (truncate_name (path ++ texture_ext))).map Image.name)
  | v => .val v

/-- The image created and configured by the miss path of `import_texture`
(material.py lines 26-34): a new image named by the derived cache key, with
the descriptor's dimensions and an alpha channel (`alpha=True`), its declared
file format taken from `FORMAT_MAP`, its source attribute set to `"FILE"`,
the raw byte buffer packed into it, and alpha mode `"CHANNEL_PACKED"`
(colorspace is Blender's default for a new image). -/
def fresh_image (texture : Texture) (fmt : String) : Image :=
  { name := truncate_name (texture.name ++ texture.format_ext)
    width := texture.width
    height := texture.height
    alpha := true
    file_format := fmt
    source := "FILE"
    packed_data := some texture.bytes
    alpha_mode := "CHANNEL_PACKED"
    colorspace := "sRGB" }

/-- `import_texture` of material.py, with `bpy.data.images` explicit.  The
second component of the result counts `pack()` calls (pixel-byte uploads)
performed by this call, instrumenting the §8 idempotent-caching property.
A `FORMAT_MAP` miss is a Python `KeyError`, embedded as `resourceError`. -/
def materialize_texture (texture : Texture) (images : List Image) :
    Except BError (List Image × Nat) :=
  match findImage images (truncate_name (texture.name ++ texture.format_ext)) with
  | some _ => .ok (images, 0)
  | none =>
      match formatLookup texture.format_ext with
      | none => .error .resourceError
      | some fmt => .ok (images ++ [fresh_image texture fmt], 1)

/-- Python `setattr` / in-place attribute update on an attribute map:
replace the first binding of the key, else append a new binding. -/
def setProp : List (String × HostValue) → String → HostValue → List (String × HostValue)
  | [], k, v => [(k, v)]
  | p :: t, k, v => if p.1 = k then (k, v) :: t else p :: setProp t k v

/-- The generic property-application loop of material.py (the spec's
`apply_properties`, §4.3): for each pair, resolve the value and assign it to
the named attribute of the target. -/
def apply_properties (images : List Image) (texture_ext : String)
    (target : List (String × HostValue)) (property_map : List (String × PValue)) :
    List (String × HostValue) :=
  property_map.foldl (fun ps kv => setProp ps kv.1 (resolve_value images kv.2 texture_ext)) target

/-- A host shader node.  `node_id` is the node's creation index inside the
node tree and serves as its identity. -/
structure HostNode where
  node_id : Nat
  blender_id : String
  location : Int × Int
  props : List (String × HostValue)
  input_defaults : List (String × HostValue)
  deriving DecidableEq

/-- A node-tree link `nt.links.new(to.inputs[to_socket], from.outputs[from_socket])`. -/
structure TreeLink where
  from_node : Nat
  from_socket : String
  to_node : Nat
  to_socket : String
  deriving DecidableEq

/-- A material's node tree (`material_data.node_tree`). -/
structure NodeTree where
  nodes : List HostNode
  links : List TreeLink
  deriving DecidableEq

/-- Python list indexing `xs[i]` for `i : Int`: a negative index counts from
the end; an index out of range after that normalization raises `IndexError`
(embedded as `none`). -/
def pyIndex (xs : List α) (i : Int) : Option α :=
  if 0 ≤ i then xs.get? i.toNat
  else if 0 ≤ i + xs.length then xs.get? (i + xs.length).toNat
  else none

/-- The socket-link loop of one node (material.py lines 71-76): for each
(input socket, link) pair, look the source node up in `built_nodes` by Python
list indexing and record the new tree link; an `IndexError` aborts. -/
def linkFold (built_nodes : List HostNode) (self : Nat) :
    List (String × NodeLink) → List TreeLink → Option (List TreeLink)
  | [], acc => some acc
  | kv :: rest, acc =>
      match pyIndex built_nodes kv.2.node_index with
      | none => none
      | some target =>
          linkFold built_nodes self rest
            (acc ++ [⟨target.node_id, kv.2.socket, self, resolve_input_socket kv.1⟩])

/-- The host node instantiated and configured for one descriptor
(material.py lines 59-69): fresh identity `t.nodes.length` (its creation
index in the tree), declared kind and position, the resolved property map,
and the resolved socket defaults under renamed socket names. -/
def new_node (images : List Image) (texture_ext : String) (t : NodeTree)
    (node : NodeDesc) : HostNode :=
  { node_id := t.nodes.length
    blender_id := node.blender_id
    location := node.position
    props := apply_properties images texture_ext [] node.properties
    input_defaults := node.socket_values.foldl
      (fun ps kv => setProp ps (resolve_input_socket kv.1) (resolve_value images kv.2 texture_ext)) [] }

/-- One iteration of the node-building loop of material.py (lines 59-78):
instantiate the host node, apply its property map and socket defaults, then
apply its socket links against the `built_nodes` sequence so far.  The new
node is appended to the tree; the failed lookup of a link source is a
`graphConsistencyError` (Python `IndexError`). -/
def build_node (images : List Image) (texture_ext : String) (t : NodeTree)
    (built_nodes : List HostNode) (node : NodeDesc) :
    Except BError (NodeTree × HostNode) :=
  match linkFold built_nodes t.nodes.length node.socket_links t.links with
  | none => .error .graphConsistencyError
  | some ls =>
      .ok ({ nodes := t.nodes ++ [new_node images texture_ext t node], links := ls },
        new_node images texture_ext t node)

/-- The node-building loop of material.py over the whole descriptor list,
carrying the tree and the `built_nodes` sequence. -/
def build_nodes (images : List Image) (texture_ext : String) :
    List NodeDesc → NodeTree → List HostNode → Except BError (NodeTree × List HostNode)
  | [], t, built => .ok (t, built)
  | d :: ds, t, built =>
      match build_node images texture_ext t built d with
      | .error e => .error e
      | .ok (t', n) => build_nodes images texture_ext ds t' (built ++ [n])

/-- The Graph Builder contract of §4.4, as realized inline in
`import_material` (lines 58-80): build every descriptor in order, then select
the final shader node as `built_nodes[-1]` — on an empty sequence that Python
indexing raises `IndexError`, embedded as `graphConsistencyError`. -/
def build_graph (images : List Image) (texture_ext : String)
    (node_descriptors : List NodeDesc) (t0 : NodeTree) :
    Except BError (NodeTree × List HostNode × HostNode) :=
  match build_nodes images texture_ext node_descriptors t0 [] with
  | .error e => .error e
  | .ok (t, built) =>
      match pyIndex built (-1) with
      | none => .error .graphConsistencyError
      | some final => .ok (t, built, final)

/-- The material-output node created at the start of every build
(`nt.nodes.new("ShaderNodeOutputMaterial")`, placed at (300, 0)).  Being the
first node created after the reset, its identity is 0. -/
def out_node : HostNode :=
  { node_id := 0
    blender_id := "ShaderNodeOutputMaterial"
    location := (300, 0)
    props := []
    input_defaults := [] }

/-- The node tree right after the reset and output-node creation:
the cleared tree holding only `out_node`. -/
def initial_tree : NodeTree :=
  { nodes := [out_node], links := [] }

/-- A host material container (`bpy.data.materials` element). -/
structure BMaterial where
  name : String
  path_id : Option String
  props : List (String × HostValue)
  use_nodes : Bool
  tree : NodeTree
  deriving DecidableEq

/-- The host state touched by material.py: the image and material registries. -/
structure BState where
  images : List Image
  materials : List BMaterial
  deriving DecidableEq

/-- `bpy.data.materials.get(name)`. -/
def findMat (materials : List BMaterial) (name : String) : Option BMaterial :=
  materials.find? (fun m => m.name = name)

/-- Write an updated material back into the registry in place of the first
material with the given name. -/
def setMat : List BMaterial → String → BMaterial → List BMaterial
  | [], _, m => [m]
  | x :: t, k, m => if x.name = k then m :: t else x :: setMat t k m

/-- The lookup-or-create step of `import_material` (lines 39-43): reuse the
registered material of that name, or create a fresh one tagged with the
untruncated logical path in its `path_id` custom property. -/
def mat_base (material : MaterialDesc) (s : BState) : BMaterial :=
  match findMat s.materials (truncate_name material.name) with
  | some m => m
  | none =>
      { name := truncate_name material.name
        path_id := some material.name
        props := []
        use_nodes := false
        tree := { nodes := [], links := [] } }

/-- The final wiring of `import_material` (line 82): connect the final shader
node's "BSDF" output to the output node's "Surface" input. -/
def wire_tree (t : NodeTree) (final : HostNode) : NodeTree :=
  { t with links := t.links ++ [⟨final.node_id, "BSDF", 0, "Surface"⟩] }

/-- Set the colorspace of every registered image of the given name
(`image.colorspace_settings.name = color_space`). -/
def setImageCs (images : List Image) (name : String) (cs : String) : List Image :=
  images.map (fun i => if i.name = name then { i with colorspace := cs } else i)

/-- The colorspace-tagging loop of `import_material` (lines 84-87): for each
(texture name, colorspace) pair, look the image up with a bracket access —
a miss is a Python `KeyError`, embedded as `missingReferenceError` — and set
its colorspace. -/
def csFold (texture_ext : String) :
    List (String × String) → List Image → Except BError (List Image)
  | [], images => .ok images
  | kv :: rest, images =>
      let image_name := truncate_name (kv.1 ++ texture_ext)
      match findImage images image_name with
      | none => .error .missingReferenceError
      | some _ => csFold texture_ext rest (setImageCs images image_name kv.2)

/-- Store the rebuilt material: replace it if the registry already held one of
that name, else append the newly created one. -/
def store_mat (materials : List BMaterial) (name : String) (m : BMaterial) :
    List BMaterial :=
  match findMat materials name with
  | some _ => setMat materials name m
  | none => materials ++ [m]

/-- `import_material` of material.py (the spec's `materialize_material`,
§4.5), over the explicit host state: lookup-or-create the container, enable
nodes, reset the tree to `initial_tree` (clear plus output node), apply the
material-level property map, build the node graph, wire the final shader node
to the output node, and tag colorspaces. -/
def materialize_material (material : MaterialDesc) (s : BState) :
    Except BError BState :=
  let material_name := truncate_name material.name
  let base := mat_base material s
  let props := apply_properties s.images material.texture_ext base.props material.properties
  match build_graph s.images material.texture_ext material.nodes initial_tree with
  | .error e => .error e
  | .ok (t, _built, final) =>
      match csFold material.texture_ext material.texture_color_spaces s.images with
      | .error e => .error e
      | .ok images' =>
          .ok { images := images'
                materials := store_mat s.materials material_name
                  { base with props := props, use_nodes := true, tree := wire_tree t final } }

/-! ### Python list indexing -/

/-- The condition under which Python indexing of a list of length `p` with
integer index `i` succeeds: either a nonnegative in-range index, or a
negative index whose absolute value is at most `p`. -/
def linkOk (p : Nat) (i : Int) : Prop :=
  (0 ≤ i ∧ i < (p : Int)) ∨ (i < 0 ∧ 0 ≤ i + (p : Int))

instance (p : Nat) (i : Int) : Decidable (linkOk p i) := by
  unfold linkOk; infer_instance

theorem get?_isSome_iff (l : List α) (n : Nat) : (l.get? n).isSome ↔ n < l.length := by
  rw [Option.isSome_iff_ne_none, ne_eq, List.get?_eq_none]; omega

theorem pyIndex_isSome_iff (xs : List α) (i : Int) :
    (pyIndex xs i).isSome ↔ linkOk xs.length i := by
  unfold pyIndex linkOk
  split
  next h0 => rw [get?_isSome_iff]; omega
  next h0 =>
    split
    next h1 => rw [get?_isSome_iff]; omega
    next h1 => simp only [Option.isSome_none, Bool.false_eq_true, false_iff]; omega

theorem pyIndex_nonneg (xs : List α) (i : Int) (h0 : 0 ≤ i) :
    pyIndex xs i = xs.get? i.toNat := by
  unfold pyIndex; rw [if_pos h0]

theorem pyIndex_neg (xs : List α) (i : Int) (h1 : i < 0) (h2 : 0 ≤ i + (xs.length : Int)) :
    pyIndex xs i = xs.get? (i + xs.length).toNat := by
  unfold pyIndex; rw [if_neg (by omega), if_pos h2]

theorem pyIndex_neg_one (xs : List α) (h : xs ≠ []) :
    pyIndex xs (-1) = xs.getLast? := by
  have hl : 0 < xs.length := List.length_pos.mpr h
  rw [pyIndex_neg xs (-1) (by omega) (by omega), List.get?_eq_getElem?,
    List.getLast?_eq_getElem?]
  congr 1
  omega

/-! ### The socket-link loop -/

theorem linkFold_isSome_iff (built : List HostNode) (self : Nat)
    (l : List (String × NodeLink)) (acc : List TreeLink) :
    (linkFold built self l acc).isSome ↔
      ∀ kv ∈ l, linkOk built.length kv.2.node_index := by
  induction l generalizing acc with
  | nil => simp [linkFold]
  | cons kv rest ih =>
    cases hp : pyIndex built kv.2.node_index with
    | none =>
      have hno : ¬ linkOk built.length kv.2.node_index := by
        rw [← pyIndex_isSome_iff, hp]; simp
      simp [linkFold, hp, hno]
    | some target =>
      have hyes : linkOk built.length kv.2.node_index := by
        rw [← pyIndex_isSome_iff, hp]; simp
      simp [linkFold, hp, ih, hyes]

/-! ### Single node construction -/

@[simp] theorem new_node_node_id (images : List Image) (ext : String) (t : NodeTree)
    (d : NodeDesc) : (new_node images ext t d).node_id = t.nodes.length := rfl

@[simp] theorem new_node_blender_id (images : List Image) (ext : String) (t : NodeTree)
    (d : NodeDesc) : (new_node images ext t d).blender_id = d.blender_id := rfl

theorem build_node_ok_iff (images : List Image) (ext : String) (t : NodeTree)
    (built : List HostNode) (d : NodeDesc) :
    (∃ r, build_node images ext t built d = .ok r) ↔
      ∀ kv ∈ d.socket_links, linkOk built.length kv.2.node_index := by
  rw [← linkFold_isSome_iff built t.nodes.length d.socket_links t.links]
  unfold build_node
  cases h : linkFold built t.nodes.length d.socket_links t.links with
  | none => simp
  | some ls => simp

theorem build_node_error (images : List Image) (ext : String) (t : NodeTree)
    (built : List HostNode) (d : NodeDesc) (e : BError)
    (h : build_node images ext t built d = .error e) : e = .graphConsistencyError := by
  unfold build_node at h
  cases hl : linkFold built t.nodes.length d.socket_links t.links <;>
    rw [hl] at h <;> simp_all

theorem build_node_shape (images : List Image) (ext : String) (t : NodeTree)
    (built : List HostNode) (d : NodeDesc) (t' : NodeTree) (n : HostNode)
    (h : build_node images ext t built d = .ok (t', n)) :
    n = new_node images ext t d ∧ t'.nodes = t.nodes ++ [n] := by
  unfold build_node at h
  cases hl : linkFold built t.nodes.length d.socket_links t.links <;> rw [hl] at h
  · exact absurd h (by simp)
  · simp only [Except.ok.injEq, Prod.mk.injEq] at h
    obtain ⟨ht, hn⟩ := h
    subst hn
    constructor
    · rfl
    · rw [← ht]

/-! ### The node-building loop -/

theorem build_nodes_ok_iff (images : List Image) (ext : String) (ds : List NodeDesc)
    (t : NodeTree) (built : List HostNode) :
    (∃ r, build_nodes images ext ds t built = .ok r) ↔
      ∀ k d, ds.get? k = some d →
        ∀ kv ∈ d.socket_links, linkOk (built.length + k) kv.2.node_index := by
  induction ds generalizing t built with
  | nil => simp [build_nodes]
  | cons d ds ih =>
    constructor
    · rintro ⟨r, hr⟩ k d' hk kv hkv
      simp only [build_nodes] at hr
      cases hb : build_node images ext t built d with
      | error e => rw [hb] at hr; exact absurd hr (by simp)
      | ok p =>
        obtain ⟨t', n⟩ := p
        rw [hb] at hr
        cases k with
        | zero =>
          simp only [List.get?_cons_zero, Option.some.injEq] at hk
          subst hk
          have := (build_node_ok_iff images ext t built d).mp ⟨_, hb⟩
          simpa using this kv hkv
        | succ k =>
          simp only [List.get?_cons_succ] at hk
          have := (ih t' (built ++ [n])).mp ⟨r, hr⟩ k d' hk kv hkv
          have harith : (built ++ [n]).length + k = built.length + (k + 1) := by
            simp; omega
          rwa [harith] at this
    · intro h
      have h0 : ∀ kv ∈ d.socket_links, linkOk built.length kv.2.node_index := by
        intro kv hkv
        simpa using h 0 d (by simp) kv hkv
      obtain ⟨⟨t', n⟩, hb⟩ := (build_node_ok_iff images ext t built d).mpr h0
      have hrest : ∀ k d', ds.get? k = some d' →
          ∀ kv ∈ d'.socket_links, linkOk ((built ++ [n]).length + k) kv.2.node_index := by
        intro k d' hk kv hkv
        have := h (k + 1) d' (by simpa using hk) kv hkv
        have harith : (built ++ [n]).length + k = built.length + (k + 1) := by
          simp; omega
        rwa [← harith] at this
      obtain ⟨r, hr⟩ := (ih t' (built ++ [n])).mpr hrest
      refine ⟨r, ?_⟩
      simp only [build_nodes]
      rw [hb]
      exact hr

theorem build_nodes_error (images : List Image) (ext : String) (ds : List NodeDesc)
    (t : NodeTree) (built : List HostNode) (e : BError)
    (h : build_nodes images ext ds t built = .error e) : e = .graphConsistencyError := by
  induction ds generalizing t built with
  | nil => simp [build_nodes] at h
  | cons d ds ih =>
    simp only [build_nodes] at h
    cases hb : build_node images ext t built d with
    | error e' =>
      rw [hb] at h
      simp only [Except.error.injEq] at h
      subst h
      exact build_node_error _ _ _ _ _ _ hb
    | ok p =>
      obtain ⟨t', n⟩ := p
      rw [hb] at h
      exact ih t' (built ++ [n]) h

theorem build_nodes_shape (images : List Image) (ext : String) (ds : List NodeDesc)
    (t : NodeTree) (built : List HostNode) (t2 : NodeTree) (b2 : List HostNode)
    (h : build_nodes images ext ds t built = .ok (t2, b2)) :
    b2.map HostNode.node_id = built.map HostNode.node_id ++ List.range' t.nodes.length ds.length ∧
    b2.map HostNode.blender_id = built.map HostNode.blender_id ++ ds.map NodeDesc.blender_id ∧
    t2.nodes.length = t.nodes.length + ds.length ∧
    b2.length = built.length + ds.length := by
  induction ds generalizing t built with
  | nil =>
    simp only [build_nodes, Except.ok.injEq, Prod.mk.injEq] at h
    obtain ⟨h1, h2⟩ := h
    subst h1
    subst h2
    simp
  | cons d ds ih =>
    simp only [build_nodes] at h
    cases hb : build_node images ext t built d with
    | error e => rw [hb] at h; exact absurd h (by simp)
    | ok p =>
      obtain ⟨t', n⟩ := p
      rw [hb] at h
      obtain ⟨hn, ht'⟩ := build_node_shape _ _ _ _ _ _ _ hb
      obtain ⟨i1, i2, i3, i4⟩ := ih t' (built ++ [n]) h
      have hlen : t'.nodes.length = t.nodes.length + 1 := by
        rw [ht']; simp
      have hid : n.node_id = t.nodes.length := by rw [hn]; simp
      have hbid : n.blender_id = d.blender_id := by rw [hn]; simp
      refine ⟨?_, ?_, ?_, ?_⟩
      · rw [i1, hlen, List.map_append, List.map_singleton, hid, List.append_assoc,
          List.singleton_append, ← List.range'_succ t.nodes.length ds.length 1,
          List.length_cons]
      · rw [i2, List.map_append, List.map_singleton, hbid, List.append_assoc,
          List.singleton_append]
        simp
      · rw [i3, hlen, List.length_cons]; omega
      · rw [i4, List.length_append, List.length_cons]
        simp
        omega

/-! ### The graph builder -/

theorem build_graph_error (images : List Image) (ext : String) (ds : List NodeDesc)
    (t0 : NodeTree) (e : BError)
    (h : build_graph images ext ds t0 = .error e) : e = .graphConsistencyError := by
  unfold build_graph at h
  split at h
  · rename_i e' heq
    simp only [Except.error.injEq] at h
    subst h
    exact build_nodes_error _ _ _ _ _ _ heq
  · split at h
    · simp only [Except.error.injEq] at h
      subst h
      rfl
    · exact absurd h (by simp)

theorem build_graph_ok_elim (images : List Image) (ext : String) (ds : List NodeDesc)
    (t0 : NodeTree) (t : NodeTree) (built : List HostNode) (final : HostNode)
    (h : build_graph images ext ds t0 = .ok (t, built, final)) :
    build_nodes images ext ds t0 [] = .ok (t, built) ∧ pyIndex built (-1) = some final := by
  unfold build_graph at h
  split at h
  · exact absurd h (by simp)
  · split at h
    · exact absurd h (by simp)
    · simp only [Except.ok.injEq, Prod.mk.injEq] at h
      obtain ⟨h1, h2, h3⟩ := h
      subst h1
      subst h2
      subst h3
      exact ⟨by assumption, by assumption⟩

theorem build_graph_ok_of (images : List Image) (ext : String) (ds : List NodeDesc)
    (t0 : NodeTree) (hne : ds ≠ [])
    (hlinks : ∀ k d, ds.get? k = some d →
      ∀ kv ∈ d.socket_links, linkOk k kv.2.node_index) :
    ∃ t built final, build_graph images ext ds t0 = .ok (t, built, final) ∧
      built.length = ds.length ∧ built.getLast? = some final := by
  obtain ⟨⟨t, built⟩, hb⟩ := (build_nodes_ok_iff images ext ds t0 []).mpr (by
    intro k d hk kv hkv
    simpa using hlinks k d hk kv hkv)
  obtain ⟨_, _, _, hlen⟩ := build_nodes_shape _ _ _ _ _ _ _ hb
  simp only [List.length_nil, Nat.zero_add] at hlen
  have hbne : built ≠ [] := by
    intro hx
    rw [hx] at hlen
    exact hne (List.length_eq_zero.mp hlen.symm)
  obtain ⟨final, hfin⟩ := Option.isSome_iff_exists.mp
    (by rw [List.getLast?_isSome]; exact hbne : built.getLast?.isSome)
  refine ⟨t, built, final, ?_, hlen, hfin⟩
  unfold build_graph
  rw [hb]
  dsimp only
  rw [pyIndex_neg_one built hbne, hfin]

/-! ### Image registry lemmas -/

theorem findImage_cons (i : Image) (rest : List Image) (k : String) :
    findImage (i :: rest) k = if i.name = k then some i else findImage rest k := by
  by_cases h : i.name = k
  · rw [findImage, List.find?_cons_of_pos _ (by simp [h]), if_pos h]
  · rw [findImage, List.find?_cons_of_neg _ (by simp [h]), if_neg h]; rfl

theorem findImage_map_name (images : List Image) (k : String) :
    (findImage images k).map Image.name =
      if k ∈ images.map Image.name then some k else none := by
  induction images with
  | nil => simp [findImage]
  | cons i rest ih =>
    rw [findImage_cons]
    by_cases h : i.name = k
    · simp [h]
    · simp only [List.map_cons, List.mem_cons]
      rw [if_neg h, ih]
      by_cases hm : k ∈ rest.map Image.name
      · rw [if_pos hm, if_pos (Or.inr hm)]
      · rw [if_neg hm, if_neg (by rintro (h1 | h1); exact h h1.symm; exact hm h1)]

theorem findImage_isSome_iff (images : List Image) (k : String) :
    (findImage images k).isSome ↔ k ∈ images.map Image.name := by
  have := findImage_map_name images k
  by_cases hm : k ∈ images.map Image.name
  · rw [if_pos hm] at this
    simp only [hm, iff_true]
    cases hf : findImage images k
    · rw [hf] at this; simp at this
    · rfl
  · rw [if_neg hm] at this
    simp only [hm, iff_false]
    cases hf : findImage images k
    · simp
    · rw [hf] at this; simp at this

theorem findImage_append_none (images : List Image) (img : Image) (k : String)
    (hf : findImage images k = none) (hk : img.name = k) :
    findImage (images ++ [img]) k = some img := by
  induction images with
  | nil => simp [findImage_cons, hk, findImage]
  | cons x rest ih =>
    rw [findImage_cons] at hf
    rw [List.cons_append, findImage_cons]
    by_cases h : x.name = k
    · rw [if_pos h] at hf; exact absurd hf (by simp)
    · rw [if_neg h] at hf
      rw [if_neg h]
      exact ih hf

/-! ### Congruence of the build in the image registry -/

theorem resolve_value_congr (im1 im2 : List Image) (value : PValue) (ext : String)
    (h : im1.map Image.name = im2.map Image.name) :
    resolve_value im1 value ext = resolve_value im2 value ext := by
  cases value <;> simp [resolve_value, findImage_map_name, h]

theorem apply_properties_congr (im1 im2 : List Image) (ext : String)
    (target : List (String × HostValue)) (pm : List (String × PValue))
    (h : im1.map Image.name = im2.map Image.name) :
    apply_properties im1 ext target pm = apply_properties im2 ext target pm := by
  induction pm generalizing target with
  | nil => rfl
  | cons kv rest ih =>
    simp only [apply_properties, List.foldl_cons]
    rw [resolve_value_congr im1 im2 kv.2 ext h]
    exact ih _

theorem defaults_fold_congr (im1 im2 : List Image) (ext : String)
    (l : List (String × PValue)) (acc : List (String × HostValue))
    (h : im1.map Image.name = im2.map Image.name) :
    l.foldl (fun ps kv => setProp ps (resolve_input_socket kv.1) (resolve_value im1 kv.2 ext)) acc =
      l.foldl (fun ps kv => setProp ps (resolve_input_socket kv.1) (resolve_value im2 kv.2 ext)) acc := by
  induction l generalizing acc with
  | nil => rfl
  | cons kv rest ih =>
    simp only [List.foldl_cons]
    rw [resolve_value_congr im1 im2 kv.2 ext h]
    exact ih _

theorem new_node_congr (im1 im2 : List Image) (ext : String) (t : NodeTree) (d : NodeDesc)
    (h : im1.map Image.name = im2.map Image.name) :
    new_node im1 ext t d = new_node im2 ext t d := by
  unfold new_node
  rw [apply_properties_congr im1 im2 ext [] d.properties h,
    defaults_fold_congr im1 im2 ext d.socket_values [] h]

theorem build_node_congr (im1 im2 : List Image) (ext : String) (t : NodeTree)
    (built : List HostNode) (d : NodeDesc)
    (h : im1.map Image.name = im2.map Image.name) :
    build_node im1 ext t built d = build_node im2 ext t built d := by
  unfold build_node
  rw [new_node_congr im1 im2 ext t d h]

theorem build_nodes_congr (im1 im2 : List Image) (ext : String) (ds : List NodeDesc)
    (t : NodeTree) (built : List HostNode)
    (h : im1.map Image.name = im2.map Image.name) :
    build_nodes im1 ext ds t built = build_nodes im2 ext ds t built := by
  induction ds generalizing t built with
  | nil => rfl
  | cons d ds ih =>
    simp only [build_nodes]
    rw [build_node_congr im1 im2 ext t built d h]
    cases build_node im2 ext t built d with
    | error e => rfl
    | ok p => exact ih p.1 (built ++ [p.2])

theorem build_graph_congr (im1 im2 : List Image) (ext : String) (ds : List NodeDesc)
    (t0 : NodeTree) (h : im1.map Image.name = im2.map Image.name) :
    build_graph im1 ext ds t0 = build_graph im2 ext ds t0 := by
  unfold build_graph
  rw [build_nodes_congr im1 im2 ext ds t0 [] h]

/-! ### Colorspace tagging -/

theorem setImageCs_map_name (images : List Image) (k cs : String) :
    (setImageCs images k cs).map Image.name = images.map Image.name := by
  unfold setImageCs
  induction images with
  | nil => rfl
  | cons i rest ih =>
    simp only [List.map_cons, ih]
    by_cases h : i.name = k <;> simp [h]

theorem csFold_names (ext : String) (l : List (String × String))
    (images images' : List Image) (h : csFold ext l images = .ok images') :
    images'.map Image.name = images.map Image.name := by
  induction l generalizing images with
  | nil =>
    simp only [csFold, Except.ok.injEq] at h
    subst h
    rfl
  | cons kv rest ih =>
    simp only [csFold] at h
    split at h
    · exact absurd h (by simp)
    · rw [ih _ h, setImageCs_map_name]

theorem csFold_ok_iff (ext : String) (l : List (String × String)) (images : List Image) :
    (∃ r, csFold ext l images = .ok r) ↔
      ∀ kv ∈ l, (findImage images (truncate_name (kv.1 ++ ext))).isSome := by
  induction l generalizing images with
  | nil => simp [csFold]
  | cons kv rest ih =>
    cases hf : findImage images (truncate_name (kv.1 ++ ext)) with
    | none =>
      simp only [csFold, hf]
      constructor
      · rintro ⟨r, hr⟩; exact absurd hr (by simp)
      · intro hall
        have := hall kv (List.mem_cons_self kv rest)
        rw [hf] at this
        simp at this
    | some i =>
      have hpres : ∀ k : String,
          (findImage (setImageCs images (truncate_name (kv.1 ++ ext)) kv.2) k).isSome ↔
            (findImage images k).isSome := by
        intro k
        rw [findImage_isSome_iff, findImage_isSome_iff, setImageCs_map_name]
      simp only [csFold, hf]
      rw [ih]
      constructor
      · intro hrest kv' hkv'
        rcases List.mem_cons.mp hkv' with h1 | h1
        · subst h1; rw [hf]; rfl
        · rw [← hpres]; exact hrest kv' h1
      · intro hall kv' hkv'
        rw [hpres]
        exact hall kv' (List.mem_cons_of_mem _ hkv')

/-! ### Material registry lemmas -/

theorem findMat_cons (x : BMaterial) (rest : List BMaterial) (k : String) :
    findMat (x :: rest) k = if x.name = k then some x else findMat rest k := by
  by_cases h : x.name = k
  · rw [findMat, List.find?_cons_of_pos _ (by simp [h]), if_pos h]
  · rw [findMat, List.find?_cons_of_neg _ (by simp [h]), if_neg h]; rfl

theorem findMat_name (mats : List BMaterial) (k : String) (m : BMaterial)
    (h : findMat mats k = some m) : m.name = k := by
  have := List.find?_some h
  simpa using this

theorem findMat_setMat_self (mats : List BMaterial) (k : String) (m : BMaterial)
    (hm : m.name = k) (hex : (findMat mats k).isSome) :
    findMat (setMat mats k m) k = some m := by
  induction mats with
  | nil => simp [findMat] at hex
  | cons x rest ih =>
    rw [findMat_cons] at hex
    by_cases h : x.name = k
    · rw [setMat, if_pos h, findMat_cons, if_pos hm]
    · rw [if_neg h] at hex
      rw [setMat, if_neg h, findMat_cons, if_neg h]
      exact ih hex

theorem setMat_map_name (mats : List BMaterial) (k : String) (m : BMaterial)
    (hm : m.name = k) (hex : (findMat mats k).isSome) :
    (setMat mats k m).map BMaterial.name = mats.map BMaterial.name := by
  induction mats with
  | nil => simp [findMat] at hex
  | cons x rest ih =>
    rw [findMat_cons] at hex
    by_cases h : x.name = k
    · rw [setMat, if_pos h]
      simp only [List.map_cons]
      rw [hm, h]
    · rw [if_neg h] at hex
      rw [setMat, if_neg h]
      simp only [List.map_cons]
      rw [ih hex]

theorem findMat_append_none (mats : List BMaterial) (k : String) (m : BMaterial)
    (hf : findMat mats k = none) (hm : m.name = k) :
    findMat (mats ++ [m]) k = some m := by
  induction mats with
  | nil => simp [findMat_cons, hm, findMat]
  | cons x rest ih =>
    rw [findMat_cons] at hf
    rw [List.cons_append, findMat_cons]
    by_cases h : x.name = k
    · rw [if_pos h] at hf; exact absurd hf (by simp)
    · rw [if_neg h] at hf
      rw [if_neg h]
      exact ih hf

theorem findMat_store_mat (mats : List BMaterial) (k : String) (m : BMaterial)
    (hm : m.name = k) : findMat (store_mat mats k m) k = some m := by
  unfold store_mat
  cases hf : findMat mats k with
  | none => exact findMat_append_none mats k m hf hm
  | some x => exact findMat_setMat_self mats k m hm (by rw [hf]; rfl)

theorem store_mat_map_name_found (mats : List BMaterial) (k : String) (m : BMaterial)
    (hm : m.name = k) (hex : (findMat mats k).isSome) :
    (store_mat mats k m).map BMaterial.name = mats.map BMaterial.name := by
  unfold store_mat
  cases hf : findMat mats k with
  | none => rw [hf] at hex; simp at hex
  | some x => exact setMat_map_name mats k m hm hex

/-! ### Success shape of a whole material build -/

/-- The material value written back by a successful build. -/
def built_mat (m : MaterialDesc) (s : BState) (t : NodeTree) (final : HostNode) :
    BMaterial :=
  { mat_base m s with
    props := apply_properties s.images m.texture_ext (mat_base m s).props m.properties
    use_nodes := true
    tree := wire_tree t final }

theorem materialize_material_ok_intro (m : MaterialDesc) (s : BState)
    (t : NodeTree) (built : List HostNode) (final : HostNode) (images' : List Image)
    (hbg : build_graph s.images m.texture_ext m.nodes initial_tree = .ok (t, built, final))
    (hcs : csFold m.texture_ext m.texture_color_spaces s.images = .ok images') :
    materialize_material m s = .ok
      { images := images'
        materials := store_mat s.materials (truncate_name m.name) (built_mat m s t final) } := by
  simp only [materialize_material, hbg, hcs, built_mat]

theorem materialize_material_ok_elim (m : MaterialDesc) (s s' : BState)
    (h : materialize_material m s = .ok s') :
    ∃ t built final images',
      build_graph s.images m.texture_ext m.nodes initial_tree = .ok (t, built, final) ∧
      csFold m.texture_ext m.texture_color_spaces s.images = .ok images' ∧
      s' = { images := images'
             materials := store_mat s.materials (truncate_name m.name)
               (built_mat m s t final) } := by
  simp only [materialize_material] at h
  split at h
  · exact absurd h (by simp)
  · rename_i t built final heq
    split at h
    · exact absurd h (by simp)
    · rename_i images' hcs
      simp only [Except.ok.injEq] at h
      exact ⟨t, built, final, images', heq, hcs, by rw [← h]; rfl⟩

/-! ### Concrete fixtures used by witnesses and counterexamples -/

/-- A link-free node descriptor. -/
def nodeEx : NodeDesc :=
  { blender_id := "ShaderNodeBsdfPrincipled"
    position := (0, 0)
    properties := []
    socket_values := []
    socket_links := [] }

/-- A node descriptor whose only socket link has source index `-1`. -/
def negLinkNode : NodeDesc :=
  { blender_id := "ShaderNodeMixRGB"
    position := (0, 0)
    properties := []
    socket_values := []
    socket_links := [("Color1", { node_index := -1, socket := "Color" })] }

/-- A node descriptor whose only socket link has source index `-3`. -/
def negLinkNode3 : NodeDesc :=
  { blender_id := "ShaderNodeMixRGB"
    position := (0, 0)
    properties := []
    socket_values := []
    socket_links := [("Color1", { node_index := -3, socket := "Color" })] }

/-- A node descriptor whose only socket link has source index `0`
(equal to its own position when placed first). -/
def fwdLinkNode : NodeDesc :=
  { blender_id := "ShaderNodeMixRGB"
    position := (0, 0)
    properties := []
    socket_values := []
    socket_links := [("Color1", { node_index := 0, socket := "Color" })] }

/-- The host node built from `nodeEx` right after the output node. -/
def builtEx : HostNode :=
  { node_id := 1
    blender_id := "ShaderNodeBsdfPrincipled"
    location := (0, 0)
    props := []
    input_defaults := [] }

/-- The node tree produced by building `[nodeEx]` from `initial_tree`. -/
def treeEx : NodeTree := { nodes := [out_node, builtEx], links := [] }

/-- A one-node material descriptor. -/
def matDescEx : MaterialDesc :=
  { name := "mat"
    texture_ext := ".png"
    properties := []
    nodes := [nodeEx]
    texture_color_spaces := [] }

/-- The empty host state. -/
def stateEx0 : BState := { images := [], materials := [] }

/-- The material produced by building `matDescEx` in the empty state. -/
def matEx1 : BMaterial :=
  { name := "mat"
    path_id := some "mat"
    props := []
    use_nodes := true
    tree := { nodes := [out_node, builtEx]
              links := [{ from_node := 1, from_socket := "BSDF",
                          to_node := 0, to_socket := "Surface" }] } }

/-- The host state after building `matDescEx` in the empty state. -/
def stateEx1 : BState := { images := [], materials := [matEx1] }

/-- A small texture descriptor. -/
def texEx : Texture :=
  { name := "tex", format_ext := ".png", width := 1, height := 1, bytes := [0, 1, 2, 3] }

/-- The image created by materializing `texEx` in the empty registry. -/
def imgEx : Image :=
  { name := "tex.png"
    width := 1
    height := 1
    alpha := true
    file_format := "PNG"
    source := "FILE"
    packed_data := some [0, 1, 2, 3]
    alpha_mode := "CHANNEL_PACKED"
    colorspace := "sRGB" }

/-! ### Claim C8 -/

/-- **C8.** `resolve_input_socket` applies the fixed rename table and is the
identity elsewhere: "Specular" maps to "Specular IOR Level", "Emission" maps
to "Emission Color", and every name outside the table passes through
unchanged. -/
theorem c8_resolve_input_socket_table :
    resolve_input_socket "Specular" = "Specular IOR Level" ∧
    resolve_input_socket "Emission" = "Emission Color" ∧
    ∀ sock : String, sock ≠ "Specular" → sock ≠ "Emission" →
      resolve_input_socket sock = sock := by
  refine ⟨rfl, rfl, ?_⟩
  intro sock h1 h2
  unfold resolve_input_socket NODE_INPUT_SOCKET_MAP
  rw [List.find?_cons_of_neg _ (by simp only [decide_eq_true_eq]; exact fun hx => h1 hx.symm),
    List.find?_cons_of_neg _ (by simp only [decide_eq_true_eq]; exact fun hx => h2 hx.symm)]
  rfl

/-- **C8, witness.** The pass-through case at the unmapped name "Roughness". -/
theorem c8_witness : resolve_input_socket "Roughness" = "Roughness" :=
  c8_resolve_input_socket_table.2.2 "Roughness" (by decide) (by decide)

/-! ### Claim C3 -/

/-- **C3, counterexample.** The claim says a `TextureRef` whose derived key
has no materialized image makes `resolve_value` fail with a
`MissingReferenceError`.  The code uses `bpy.data.images.get`, which does not
raise: at the concrete miss (`"metal/plate01"` with extension `".png"` in an
empty registry) `resolve_value` returns the null image handle (Python `None`)
and no error at all. -/
theorem c3_counterexample :
    resolve_value [] (PValue.texRef "metal/plate01") ".png" = HostValue.image none := rfl

/-- **C3 (amended).** For every `TextureRef` whose derived cache key has no
already-materialized image, `resolve_value` returns the null image handle
(`None`) rather than failing; it never creates or materializes an image on
demand (it only reads the registry — it takes the image registry as input and
returns a plain value, leaving no way to extend the registry). -/
theorem c3_amended (images : List Image) (ext path : String)
    (hmiss : findImage images (truncate_name (path ++ ext)) = none) :
    resolve_value images (PValue.texRef path) ext = HostValue.image none := by
  simp only [resolve_value, hmiss, Option.map_none']

/-- **C3, witness.** The amended claim at the spec's own example input. -/
theorem c3_witness :
    resolve_value [] (PValue.texRef "metal/plate01") ".png" = HostValue.image none :=
  c3_amended [] ".png" "metal/plate01" rfl

/-! ### Claim C5 -/

/-- **C5.** Materializing a texture whose derived cache key is fresh uploads
its bytes exactly once: the first call creates the image and performs one
upload, and a second call with the same descriptor finds the image under the
same key, returns the registry unchanged and performs zero uploads (the
cache-hit path does nothing but the lookup — in particular no re-upload and
no dimension re-check). -/
theorem c5_texture_idempotent (texture : Texture) (images : List Image)
    (hfresh : findImage images (truncate_name (texture.name ++ texture.format_ext)) = none)
    (hfmt : (formatLookup texture.format_ext).isSome) :
    ∃ images1 img,
      materialize_texture texture images = .ok (images1, 1) ∧
      findImage images1 (truncate_name (texture.name ++ texture.format_ext)) = some img ∧
      materialize_texture texture images1 = .ok (images1, 0) := by
  obtain ⟨fmt, hfmt'⟩ := Option.isSome_iff_exists.mp hfmt
  have hname : (fresh_image texture fmt).name =
      truncate_name (texture.name ++ texture.format_ext) := rfl
  have h2 := findImage_append_none images (fresh_image texture fmt) _ hfresh hname
  refine ⟨images ++ [fresh_image texture fmt], fresh_image texture fmt, ?_, h2, ?_⟩
  · simp only [materialize_texture, hfresh, hfmt']
  · simp only [materialize_texture, h2]

/-- **C5, witness.** The double-build of `texEx` from the empty registry. -/
theorem c5_witness :
    ∃ images1 img,
      materialize_texture texEx [] = .ok (images1, 1) ∧
      findImage images1 (truncate_name (texEx.name ++ texEx.format_ext)) = some img ∧
      materialize_texture texEx images1 = .ok (images1, 0) :=
  c5_texture_idempotent texEx [] rfl rfl

/-! ### Claim C6 -/

/-- **C6, counterexample.** The claim says the freshly created image's pixel
source is marked "embedded/packed rather than file-backed".  The code sets
`image_data.source = "FILE"` — the file-backed source tag — before packing:
materializing `texEx` in the empty registry yields exactly `imgEx`, whose
`source` field is `"FILE"`. -/
theorem c6_counterexample :
    materialize_texture texEx [] = .ok ([imgEx], 1) ∧ imgEx.source = "FILE" :=
  ⟨rfl, rfl⟩

/-- **C6 (amended).** When no cached image exists under the derived key,
materializing a texture creates a new host image with the descriptor's width
and height and an alpha channel, sets its on-disk format from the encoding
tag, sets its pixel-source attribute to the file-backed tag `"FILE"` while
embedding the raw byte buffer by packing it, and sets its alpha
interpretation to channel-packed. -/
theorem c6_amended (texture : Texture) (images : List Image) (fmt : String)
    (hfresh : findImage images (truncate_name (texture.name ++ texture.format_ext)) = none)
    (hfmt : formatLookup texture.format_ext = some fmt) :
    materialize_texture texture images = .ok
      (images ++ [{
        name := truncate_name (texture.name ++ texture.format_ext)
        width := texture.width
        height := texture.height
        alpha := true
        file_format := fmt
        source := "FILE"
        packed_data := some texture.bytes
        alpha_mode := "CHANNEL_PACKED"
        colorspace := "sRGB" }], 1) := by
  simp only [materialize_texture, hfresh, hfmt]
  rfl

/-- **C6, witness.** The amended claim at the concrete texture `texEx`. -/
theorem c6_witness :
    materialize_texture texEx [] = .ok
      ([{ name := truncate_name (texEx.name ++ texEx.format_ext)
          width := texEx.width
          height := texEx.height
          alpha := true
          file_format := "PNG"
          source := "FILE"
          packed_data := some texEx.bytes
          alpha_mode := "CHANNEL_PACKED"
          colorspace := "sRGB" }], 1) := by
  have := c6_amended texEx [] "PNG" rfl rfl
  simpa using this

/-! ### Claim C2 -/

/-- **C2.** A node list containing a socket link whose source index equals or
exceeds the referencing node's own position makes the graph build fail with a
`graphConsistencyError`; it never silently succeeds (in the embedding,
Python's bound-checked list indexing returns `none` instead of reading out of
bounds, and that is the only error the build loop can raise). -/
theorem c2_invalid_index_rejected (images : List Image) (ext : String)
    (ds : List NodeDesc) (t0 : NodeTree)
    (hbad : ∃ k, ∃ hk : k < ds.length, ∃ kv ∈ (ds.get ⟨k, hk⟩).socket_links,
      (k : Int) ≤ kv.2.node_index) :
    build_graph images ext ds t0 = .error .graphConsistencyError := by
  obtain ⟨k, hk, kv, hkv, hge⟩ := hbad
  have hnotok : ¬ ∀ k d, ds.get? k = some d →
      ∀ kv ∈ d.socket_links, linkOk ((List.length ([] : List HostNode)) + k) kv.2.node_index := by
    intro hall
    have := hall k (ds.get ⟨k, hk⟩) (List.get?_eq_get hk) kv hkv
    simp only [List.length_nil, Nat.zero_add] at this
    unfold linkOk at this
    omega
  have hnok : ¬ ∃ r, build_nodes images ext ds t0 [] = .ok r := by
    rw [build_nodes_ok_iff]
    exact hnotok
  cases hb : build_nodes images ext ds t0 [] with
  | ok r => exact absurd ⟨r, hb⟩ hnok
  | error e =>
    have he := build_nodes_error _ _ _ _ _ _ hb
    subst he
    unfold build_graph
    rw [hb]

/-- **C2, witness.** A single-node list whose node links to index 0 — equal
to its own position — is rejected. -/
theorem c2_witness :
    build_graph [] ".png" [fwdLinkNode] initial_tree = .error .graphConsistencyError :=
  c2_invalid_index_rejected [] ".png" [fwdLinkNode] initial_tree
    ⟨0, by decide, ("Color1", { node_index := 0, socket := "Color" }), by decide, by decide⟩

/-! ### Claim C7 -/

/-- **C7.** Building from an empty descriptor list fails with a
`graphConsistencyError` (there is no final node for `built_nodes[-1]` to
return), while a descriptor list of length 1 with no links builds
successfully. -/
theorem c7_empty_and_singleton (images : List Image) (ext : String) (t0 : NodeTree)
    (d : NodeDesc) (hd : d.socket_links = []) :
    build_graph images ext [] t0 = .error .graphConsistencyError ∧
    ∃ r, build_graph images ext [d] t0 = .ok r := by
  constructor
  · rfl
  · obtain ⟨t, built, final, hok, -, -⟩ := build_graph_ok_of images ext [d] t0 (by simp)
      (by
        intro k d' hk kv hkv
        cases k with
        | zero =>
          simp only [List.get?_cons_zero, Option.some.injEq] at hk
          subst hk
          rw [hd] at hkv
          exact absurd hkv (List.not_mem_nil kv)
        | succ k => simp at hk)
    exact ⟨(t, built, final), hok⟩

/-- **C7, witness.** The empty list and the link-free singleton `[nodeEx]`. -/
theorem c7_witness :
    build_graph [] ".png" [] initial_tree = .error .graphConsistencyError ∧
    ∃ r, build_graph [] ".png" [nodeEx] initial_tree = .ok r :=
  c7_empty_and_singleton [] ".png" initial_tree nodeEx rfl

/-! ### Claim C9 -/

/-- **C9, counterexample.** The claim says graph building never fails on a
negative source index.  It does: in the two-node list `[nodeEx, negLinkNode3]`
the second node's link index `-3` normalizes to `-3 + 1 = -2`, still out of
range of the one-element built sequence, and the build fails with a
`graphConsistencyError` (Python `IndexError`). -/
theorem c9_counterexample :
    build_graph [] ".png" [nodeEx, negLinkNode3] initial_tree =
      .error .graphConsistencyError := rfl

/-- **C9 (amended).** A negative source index is accepted exactly when its
absolute value is at most the number of already-built nodes (the referencing
node's position): the node builds without error and the link silently
resolves to the already-built node counted from the end of the sequence built
so far (`built_nodes[i + len]`, so index -1 is the most recently built node);
a more negative index fails the build. -/
theorem c9_amended (images : List Image) (ext : String) (t : NodeTree)
    (built : List HostNode) (d : NodeDesc) (sock out : String) (i : Int)
    (hd : d.socket_links = [(sock, { node_index := i, socket := out })])
    (hneg : i < 0) (hbound : 0 ≤ i + (built.length : Int)) :
    ∃ target t',
      built.get? (i + built.length).toNat = some target ∧
      build_node images ext t built d = .ok (t', new_node images ext t d) ∧
      t'.links = t.links ++
        [{ from_node := target.node_id, from_socket := out,
           to_node := t.nodes.length, to_socket := resolve_input_socket sock }] := by
  have hp : pyIndex built i = built.get? (i + built.length).toNat :=
    pyIndex_neg _ _ hneg hbound
  have hs : (pyIndex built i).isSome := by
    rw [pyIndex_isSome_iff]
    unfold linkOk
    omega
  obtain ⟨target, htgt⟩ := Option.isSome_iff_exists.mp hs
  have hlf : linkFold built t.nodes.length d.socket_links t.links =
      some (t.links ++
        [{ from_node := target.node_id
           from_socket := out
           to_node := t.nodes.length
           to_socket := resolve_input_socket sock }]) := by
    simp only [hd, linkFold, htgt]
  refine ⟨target,
    { nodes := t.nodes ++ [new_node images ext t d]
      links := t.links ++
        [{ from_node := target.node_id
           from_socket := out
           to_node := t.nodes.length
           to_socket := resolve_input_socket sock }] },
    by rw [← hp]; exact htgt, ?_, rfl⟩
  unfold build_node
  rw [hlf]

/-- **C9, witness.** With one node already built, a link of index `-1`
resolves to that node (the most recently built one). -/
theorem c9_witness :
    ∃ target t',
      [builtEx].get? ((-1 : Int) + ([builtEx] : List HostNode).length).toNat = some target ∧
      build_node [] ".png" treeEx [builtEx] negLinkNode =
        .ok (t', new_node [] ".png" treeEx negLinkNode) ∧
      t'.links = treeEx.links ++
        [{ from_node := target.node_id, from_socket := "Color",
           to_node := treeEx.nodes.length, to_socket := resolve_input_socket "Color1" }] :=
  c9_amended [] ".png" treeEx [builtEx] negLinkNode "Color1" "Color" (-1) rfl
    (by decide) (by decide)

/-! ### Claim C10 -/

/-- **C10.** In a successful build from the reset tree (output node only),
the built-node sequence consists of exactly the nodes created from the
descriptor list in descriptor order — their kinds match the descriptors
pairwise and their identities are the creation indices 1,…,n — and the
material-output node (identity 0) is never part of that sequence, so no link
index can address it. -/
theorem c10_built_sequence (images : List Image) (ext : String) (ds : List NodeDesc)
    (t : NodeTree) (built : List HostNode) (final : HostNode)
    (h : build_graph images ext ds initial_tree = .ok (t, built, final)) :
    built.map HostNode.blender_id = ds.map NodeDesc.blender_id ∧
    built.map HostNode.node_id = List.range' 1 ds.length ∧
    ∀ n ∈ built, n.node_id ≠ out_node.node_id := by
  obtain ⟨hb, -⟩ := build_graph_ok_elim _ _ _ _ _ _ _ h
  obtain ⟨h1, h2, -, -⟩ := build_nodes_shape _ _ _ _ _ _ _ hb
  simp only [List.map_nil, List.nil_append] at h1 h2
  have hlen : initial_tree.nodes.length = 1 := rfl
  rw [hlen] at h1
  refine ⟨h2, h1, ?_⟩
  intro n hn
  have hmem : n.node_id ∈ built.map HostNode.node_id := List.mem_map_of_mem _ hn
  rw [h1] at hmem
  have hrange := List.mem_range'_1.mp hmem
  intro hz
  rw [hz] at hrange
  have hout : out_node.node_id = 0 := rfl
  rw [hout] at hrange
  omega

/-- **C10, witness.** The one-node build where the sequence is `[builtEx]`
(kind matching `nodeEx`, identity 1) and the output node is absent. -/
theorem c10_witness :
    List.map HostNode.blender_id [builtEx] = List.map NodeDesc.blender_id [nodeEx] ∧
    List.map HostNode.node_id [builtEx] = List.range' 1 ([nodeEx] : List NodeDesc).length ∧
    ∀ n ∈ [builtEx], n.node_id ≠ out_node.node_id :=
  c10_built_sequence [] ".png" [nodeEx] treeEx [builtEx] builtEx rfl

/-! ### Claim C1 -/

theorem mat_base_name (m : MaterialDesc) (s : BState) :
    (mat_base m s).name = truncate_name m.name := by
  unfold mat_base
  split
  · rename_i x hf
    exact findMat_name _ _ _ hf
  · rfl

theorem built_mat_name (m : MaterialDesc) (s : BState) (t : NodeTree) (final : HostNode) :
    (built_mat m s t final).name = truncate_name m.name :=
  mat_base_name m s

/-- **C1, counterexample.** The claim quantifies over every node list in which
each link's source index is strictly less than the node's own position.  Two
such lists make the build fail instead of succeeding: the empty list
(vacuously satisfying the premise, but `built_nodes[-1]` has no final node to
return), and the singleton `[negLinkNode]` whose link index `-1` is strictly
less than its position `0` yet out of range of the empty built sequence. -/
theorem c1_counterexample :
    build_graph [] ".png" [] initial_tree = .error .graphConsistencyError ∧
    build_graph [] ".png" [negLinkNode] initial_tree = .error .graphConsistencyError :=
  ⟨rfl, rfl⟩

/-- **C1 (amended).** For every nonempty node-descriptor list in which each
socket-link's source index is nonnegative and strictly less than the
referencing node's own position, building the graph succeeds in a single
in-order pass (the single fold of the embedding) and produces exactly
`len(nodes)` built host nodes, the last of which is the designated final
shader node; and whenever the surrounding material build succeeds, that final
node's "BSDF" output is wired to the material-output node's "Surface" input
(the last link of the stored tree connects node `len(nodes)` — the final
node's identity — to node 0). -/
theorem c1_amended (m : MaterialDesc) (s : BState)
    (hne : m.nodes ≠ [])
    (hlinks : ∀ k, (hk : k < m.nodes.length) →
      ∀ kv ∈ (m.nodes.get ⟨k, hk⟩).socket_links,
        0 ≤ kv.2.node_index ∧ kv.2.node_index < (k : Int)) :
    (∃ t built final,
        build_graph s.images m.texture_ext m.nodes initial_tree = .ok (t, built, final) ∧
        built.length = m.nodes.length ∧ built.getLast? = some final) ∧
    (∀ s', materialize_material m s = .ok s' →
        ∃ mat, findMat s'.materials (truncate_name m.name) = some mat ∧
          mat.tree.links.getLast? =
            some { from_node := m.nodes.length
                   from_socket := "BSDF"
                   to_node := 0
                   to_socket := "Surface" }) := by
  have hlinks' : ∀ k d, m.nodes.get? k = some d →
      ∀ kv ∈ d.socket_links, linkOk k kv.2.node_index := by
    intro k d hk kv hkv
    obtain ⟨hlt, hget⟩ := List.get?_eq_some.mp hk
    rw [← hget] at hkv
    exact Or.inl (hlinks k hlt kv hkv)
  obtain ⟨t, built, final, hbg, hblen, hlast⟩ :=
    build_graph_ok_of s.images m.texture_ext m.nodes initial_tree hne hlinks'
  refine ⟨⟨t, built, final, hbg, hblen, hlast⟩, ?_⟩
  intro s' hs'
  obtain ⟨t2, built2, final2, images', hbg2, hcs2, hs'eq⟩ :=
    materialize_material_ok_elim m s s' hs'
  have hsame := hbg.symm.trans hbg2
  simp only [Except.ok.injEq, Prod.mk.injEq] at hsame
  obtain ⟨h1, h2, h3⟩ := hsame
  subst h1
  subst h2
  subst h3
  obtain ⟨hbnodes, hpyi⟩ := build_graph_ok_elim _ _ _ _ _ _ _ hbg
  obtain ⟨hids, -, -, -⟩ := build_nodes_shape _ _ _ _ _ _ _ hbnodes
  simp only [List.map_nil, List.nil_append] at hids
  have hinit : initial_tree.nodes.length = 1 := rfl
  rw [hinit] at hids
  have hbpos : 0 < built.length := by
    rw [hblen]
    exact List.length_pos.mpr hne
  have hfid : final.node_id = m.nodes.length := by
    rw [pyIndex_neg built (-1) (by omega) (by omega)] at hpyi
    have hmap := congrArg (Option.map HostNode.node_id) hpyi
    rw [← List.get?_map, hids] at hmap
    have htn : ((-1 : Int) + (built.length : Int)).toNat = m.nodes.length - 1 := by
      omega
    rw [htn] at hmap
    have hlt : m.nodes.length - 1 < m.nodes.length := by omega
    rw [List.get?_range' 1 1 hlt] at hmap
    simp only [Option.map_some', Option.some.injEq] at hmap
    omega
  subst hs'eq
  refine ⟨built_mat m s t final, ?_, ?_⟩
  · exact findMat_store_mat s.materials _ _ (built_mat_name m s t final)
  · show (wire_tree t final).links.getLast? = _
    unfold wire_tree
    rw [List.getLast?_concat, hfid]

/-- **C1, witness.** The single-node descriptor `matDescEx` built in the
empty state. -/
theorem c1_witness :
    (∃ t built final,
        build_graph stateEx0.images matDescEx.texture_ext matDescEx.nodes initial_tree =
          .ok (t, built, final) ∧
        built.length = matDescEx.nodes.length ∧ built.getLast? = some final) ∧
    (∀ s', materialize_material matDescEx stateEx0 = .ok s' →
        ∃ mat, findMat s'.materials (truncate_name matDescEx.name) = some mat ∧
          mat.tree.links.getLast? =
            some { from_node := matDescEx.nodes.length
                   from_socket := "BSDF"
                   to_node := 0
                   to_socket := "Surface" }) :=
  c1_amended matDescEx stateEx0 (by decide) (by decide)

/-! ### Claim C4 -/

/-- **C4.** Materializing the same MaterialDescriptor twice in sequence is
idempotent: the second build also succeeds, resolves to the same single
material handle under the derived key (the registry's name list is
unchanged — no second material appears), the graph is rebuilt from the reset
tree both times, and the node-tree structure after the second build equals
the structure after the first, with exactly `len(nodes) + 1` nodes (the
descriptor's nodes plus the output node) — no duplicate nodes accumulate. -/
theorem c4_rebuild_idempotent (m : MaterialDesc) (s s1 : BState)
    (h : materialize_material m s = .ok s1) :
    ∃ s2, materialize_material m s1 = .ok s2 ∧
      s2.materials.map BMaterial.name = s1.materials.map BMaterial.name ∧
      ∃ mat1 mat2,
        findMat s1.materials (truncate_name m.name) = some mat1 ∧
        findMat s2.materials (truncate_name m.name) = some mat2 ∧
        mat2.tree = mat1.tree ∧
        mat1.tree.nodes.length = m.nodes.length + 1 := by
  obtain ⟨t, built, final, images1, hbg, hcs, hs1⟩ :=
    materialize_material_ok_elim m s s1 h
  have hnames : images1.map Image.name = s.images.map Image.name :=
    csFold_names _ _ _ _ hcs
  have hs1i : s1.images = images1 := by rw [hs1]
  have hs1m : s1.materials =
      store_mat s.materials (truncate_name m.name) (built_mat m s t final) := by
    rw [hs1]
  have hbg2 : build_graph s1.images m.texture_ext m.nodes initial_tree =
      .ok (t, built, final) := by
    rw [hs1i, build_graph_congr images1 s.images m.texture_ext m.nodes initial_tree hnames]
    exact hbg
  have hcs2 : ∃ r, csFold m.texture_ext m.texture_color_spaces s1.images = .ok r := by
    rw [csFold_ok_iff]
    intro kv hkv
    have h1 := (csFold_ok_iff m.texture_ext m.texture_color_spaces s.images).mp
      ⟨images1, hcs⟩ kv hkv
    rw [hs1i, findImage_isSome_iff, hnames, ← findImage_isSome_iff]
    exact h1
  obtain ⟨images2, hcs2⟩ := hcs2
  refine ⟨_, materialize_material_ok_intro m s1 t built final images2 hbg2 hcs2, ?_, ?_⟩
  · show (store_mat s1.materials (truncate_name m.name) (built_mat m s1 t final)).map
        BMaterial.name = s1.materials.map BMaterial.name
    apply store_mat_map_name_found
    · exact built_mat_name m s1 t final
    · rw [hs1m, findMat_store_mat s.materials _ _ (built_mat_name m s t final)]
      rfl
  · refine ⟨built_mat m s t final, built_mat m s1 t final, ?_, ?_, rfl, ?_⟩
    · rw [hs1m]
      exact findMat_store_mat s.materials _ _ (built_mat_name m s t final)
    · exact findMat_store_mat s1.materials _ _ (built_mat_name m s1 t final)
    · show (wire_tree t final).nodes.length = m.nodes.length + 1
      obtain ⟨hbnodes, -⟩ := build_graph_ok_elim _ _ _ _ _ _ _ hbg
      obtain ⟨-, -, hlen, -⟩ := build_nodes_shape _ _ _ _ _ _ _ hbnodes
      have hinit : initial_tree.nodes.length = 1 := rfl
      rw [hinit] at hlen
      show t.nodes.length = m.nodes.length + 1
      omega

/-- **C4, witness.** Rebuilding `matDescEx` on top of its own first build. -/
theorem c4_witness :
    ∃ s2, materialize_material matDescEx stateEx1 = .ok s2 ∧
      s2.materials.map BMaterial.name = stateEx1.materials.map BMaterial.name ∧
      ∃ mat1 mat2,
        findMat stateEx1.materials (truncate_name matDescEx.name) = some mat1 ∧
        findMat s2.materials (truncate_name matDescEx.name) = some mat2 ∧
        mat2.tree = mat1.tree ∧
        mat1.tree.nodes.length = matDescEx.nodes.length + 1 :=
  c4_rebuild_idempotent matDescEx stateEx0 stateEx1 rfl
